import Mathlib

/-!
Shallow embedding of src/selector_playgsf.cpp (PlayGSF gui for GKD pixel 2).

The program is a single-threaded SDL front end: a fixed-rate tick loop that
polls the external playgsf process for exit, updates an elapsed-time counter,
samples the two analog triggers, and drains SDL events.  Everything the
claims refer to lives in one translation unit; external collaborators
(filesystem enumeration, the psftag metadata reader, fork results, trigger
axis samples, the font line metric used by the list renderer) are modelled
as explicit inputs supplied to each tick.  Times are modelled in whole
seconds as integers, pids as integers with -1 meaning no process.
-/

namespace PlayGSF

/-- MUSIC_ROOT constant from the source. -/
def MUSIC_ROOT : String := "/roms/music/GBA"

/-- TRIGGER_THRESHOLD constant from the source. -/
def TRIGGER_THRESHOLD : Int := 16000

/-- Entry from the source: a directory-listing row. -/
structure Entry where
  name : String
  is_dir : Bool
deriving DecidableEq, Repr

/-- Mode enum from the source. -/
inductive Mode where
  | MODE_LIST
  | MODE_PLAYBACK
deriving DecidableEq, Repr

/-- LoopMode enum from the source. -/
inductive LoopMode where
  | LOOP_OFF
  | LOOP_ONE
  | LOOP_ALL
deriving DecidableEq, Repr

/-- TrackMetadata from the source (all plain strings filled by psftag). -/
structure TrackMetadata where
  filename : String
  title : String
  artist : String
  game : String
  year : String
  copyright : String
  gsf_by : String
  length : String
deriving DecidableEq, Repr

instance : Inhabited TrackMetadata :=
  ⟨⟨"", "", "", "", "", "", "", ""⟩⟩

/-- The program state: the global variables of the translation unit plus the
locals of main that survive across loop iterations. -/
structure St where
  mode : Mode
  loop_mode : LoopMode
  entries : List Entry
  current_path : String
  selected_index : Int
  scroll_offset : Int
  playgsf_pid : Int
  paused : Bool
  screen_off : Bool
  l2_prev : Bool
  r2_prev : Bool
  playback_start : Int
  elapsed_seconds : Int
  running : Bool
  current_meta : TrackMetadata
deriving Repr

/-- clamp_index from the source: two sequential conditional assignments
(note that with low = 0 and high = -1 the result is -1, not 0). -/
def clamp_index (idx low high : Int) : Int :=
  let i := if idx < low then low else idx
  if i > high then high else i

/-- Suffix of the character list starting at the last dot, if any
(models fname.substr(fname.find_last_of ('.'))). -/
def lastDotSuffix : List Char → Option (List Char)
  | [] => none
  | c :: cs =>
    match lastDotSuffix cs with
    | some s => some s
    | none => if c = '.' then some (c :: cs) else none

/-- is_valid_music from the source: the extension (from the last dot,
inclusive), lower-cased, equals ".minigsf". -/
def is_valid_music (fname : String) : Bool :=
  match lastDotSuffix fname.toList with
  | none => false
  | some ext => (ext.map Char.toLower) = (".minigsf".toList)

/-- Lexicographic comparison of character lists: the std::string operator
less-than used by the sort comparator (element-wise compare, shorter prefix
first). -/
def chars_lt : List Char → List Char → Bool
  | _, [] => false
  | [], _ :: _ => true
  | c :: cs, d :: ds =>
    if c < d then true
    else if d < c then false
    else chars_lt cs ds

/-- std::string operator less-than on the two names. -/
def str_lt (a b : String) : Bool := chars_lt a.toList b.toList

/-- The strict comparator passed to std::sort in list_directory:
directories sort before files, otherwise ascending by name. -/
def entry_lt (a b : Entry) : Bool :=
  if a.is_dir = b.is_dir then str_lt a.name b.name else a.is_dir

/-- The associated weak order: a may precede b in the sorted output. -/
def entry_le (a b : Entry) : Prop := entry_lt b a = false

instance entry_le_dec : DecidableRel entry_le := fun a b =>
  inferInstanceAs (Decidable (entry_lt b a = false))

/-- The readdir filter from list_directory: skip "." and "..", keep
directories and files with the playable extension. -/
def keep_entry (e : Entry) : Bool :=
  !(e.name = ".") && !(e.name = "..") && (e.is_dir || is_valid_music e.name)

/-- The catalog list produced by list_directory: the filtered raw directory
enumeration sorted with the entry_lt comparator.  (std::sort is unstable;
insertion sort realises one execution allowed by the strict weak order, and
every theorem below only uses sortedness and permutation.) -/
def sorted_entries (raw : List Entry) : List Entry :=
  List.insertionSort entry_le (raw.filter keep_entry)

/-- list_directory from the source.  raw is the readdir enumeration of the
requested path, or none when opendir fails (in which case the function
returns right after clearing entries, leaving selected_index untouched). -/
def list_directory (raw : Option (List Entry)) (reset : Bool) (st : St) : St :=
  let stc := { st with entries := [] }
  match raw with
  | none => stc
  | some l =>
    let es := sorted_entries l
    let sel0 := if reset then 0 else stc.selected_index
    let so0 := if reset then 0 else stc.scroll_offset
    { stc with
        entries := es
        selected_index := clamp_index sel0 0 ((es.length : Int) - 1)
        scroll_offset := so0 }

/-- The state mutations performed by draw_list (the renderer clamps
selected_index, and recomputes scroll_offset when the list is non-empty).
ml0 models the externally determined max_lines value. -/
def draw_list_upd (ml0 : Int) (st : St) : St :=
  let ml := if ml0 < 1 then 1 else ml0
  let total : Int := st.entries.length
  let sel := clamp_index st.selected_index 0 (if total > 0 then total - 1 else 0)
  if total = 0 then { st with selected_index := sel }
  else
    let so :=
      if sel ≤ ml / 2 then 0
      else if sel ≥ total - ml / 2 then max 0 (total - ml)
      else sel - ml / 2
    { st with selected_index := sel, scroll_offset := so }

/-- kill_playgsf from the source: SIGKILL plus synchronous reap when a
process is held, clearing the handle and the paused flag. -/
def kill_playgsf (st : St) : St :=
  if st.playgsf_pid > 0 then { st with playgsf_pid := -1, paused := false }
  else st

/-- launch_playgsf from the source.  forkResult models the value fork
returned in the parent: a positive child pid on success, negative on
failure (fork never returns 0 in the parent). -/
def launch_playgsf (st : St) (forkResult : Int) : Bool × St :=
  if st.playgsf_pid ≠ -1 then (false, st)
  else if forkResult > 0 then
    (true, { st with playgsf_pid := forkResult, paused := false })
  else (false, st)

/-- The body test of the do-while loop in find_next_track: entry at idx
exists, is not a directory and has the playable extension. -/
def playable_at (entries : List Entry) (idx : Int) : Bool :=
  match entries.get? idx.toNat with
  | some e => !e.is_dir && is_valid_music e.name
  | none => false

/-- The do-while loop of find_next_track, with explicit fuel.  For an
in-range starting index the index returns to current after exactly
entries.length steps, so fuel entries.length reproduces the C loop. -/
def fnt_loop (entries : List Entry) (current : Int) (forward : Bool) :
    Nat → Int → Int
  | 0, _ => current
  | Nat.succ fuel, idx =>
    let size : Int := entries.length
    let idx2 := if forward then (idx + 1) % size else (idx - 1 + size) % size
    if playable_at entries idx2 = true then idx2
    else if idx2 = current then current
    else fnt_loop entries current forward fuel idx2

/-- find_next_track from the source: circular search for the adjacent
playable file; returns -1 on an empty catalog. -/
def find_next_track (entries : List Entry) (current : Int) (forward : Bool) :
    Int :=
  if entries.length = 0 then -1
  else fnt_loop entries current forward entries.length current

/-- Name of the entry at an index (entries[idx].name; out-of-range access
is undefined behaviour in C++ and unreachable under the program invariant,
the model totalises it with the empty name). -/
def entry_name_at (entries : List Entry) (idx : Int) : String :=
  match entries.get? idx.toNat with
  | some e => e.name
  | none => ""

/-- The controller buttons the event loop inspects (plus OTHER for the
buttons it ignores). -/
inductive Button where
  | GUIDE
  | BACK
  | Y
  | DPAD_UP
  | DPAD_DOWN
  | LEFTSHOULDER
  | RIGHTSHOULDER
  | DPAD_LEFT
  | DPAD_RIGHT
  | A
  | B
  | START
  | OTHER
deriving DecidableEq, Repr

/-- The SDL events the loop inspects: SDL_QUIT, SDL_CONTROLLERBUTTONDOWN,
and anything else (ignored). -/
inductive Event where
  | quit
  | buttonDown (b : Button)
  | other
deriving DecidableEq, Repr

/-- The external inputs one loop iteration consumes: the clock, the waitpid
result, controller presence and trigger axis values, the psftag read result,
the fork result, the renderer line budget, the drained SDL events, and the
filesystem (readdir) as seen by any list_directory call this iteration. -/
structure TickInput where
  now : Int
  exited : Bool
  controller : Bool
  l2 : Int
  r2 : Int
  metaOk : Bool
  metaVal : TrackMetadata
  forkResult : Int
  max_lines : Int
  events : List Event
  fs : String → Option (List Entry)

/-- The parent-path computation of the B (back) handler in list mode:
find_last_of slash, then substr up to it (char-level model of the byte
positions, identical for ASCII paths). -/
def lastIdxOf (c : Char) : List Char → Option Nat
  | [] => none
  | x :: xs =>
    match lastIdxOf c xs with
    | some i => some (i + 1)
    | none => if x = c then some 0 else none

/-- parent_path: the string current_path is replaced with in the back
handler (the MUSIC_ROOT test mirrors the ternary in the source). -/
def parent_path (p : String) : String :=
  match lastIdxOf '/' p.toList with
  | none => MUSIC_ROOT
  | some pos => if p = MUSIC_ROOT then MUSIC_ROOT else String.mk (p.toList.take pos)

/-- LoopMode cycling by the Y button: (loop_mode + 1) % 3. -/
def loop_next : LoopMode → LoopMode
  | LoopMode.LOOP_OFF => LoopMode.LOOP_ONE
  | LoopMode.LOOP_ONE => LoopMode.LOOP_ALL
  | LoopMode.LOOP_ALL => LoopMode.LOOP_OFF

/-- The respawn half of the exit-detection block (loop mode is One or
All, st1 already has the pid cleared): pick the next track (same track
under LOOP_ONE), read its metadata (resetting playback_start only when the
read succeeds) and relaunch, then redraw the list when not in playback. -/
def exit_respawn (inp : TickInput) (st1 : St) : St :=
  let next :=
    if st1.loop_mode = LoopMode.LOOP_ONE then st1.selected_index
    else find_next_track st1.entries st1.selected_index true
  let st2 :=
    if next ≠ st1.selected_index then { st1 with selected_index := next }
    else st1
  let filepath :=
    st2.current_path ++ "/" ++ entry_name_at st2.entries st2.selected_index
  let st3 :=
    if inp.metaOk then
      { st2 with
          current_meta := { inp.metaVal with filename := filepath }
          playback_start := inp.now }
    else st2
  let st4 := (launch_playgsf st3 inp.forkResult).2
  if st4.mode = Mode.MODE_PLAYBACK then st4
  else draw_list_upd inp.max_lines st4

/-- Exit-detection step (the waitpid WNOHANG block at the top of the
loop): only with a live unpaused process; on an observed exit, clear the
pid, then either fall back to the list (LOOP_OFF) or respawn. -/
def exit_step (inp : TickInput) (st : St) : St :=
  if st.playgsf_pid > 0 ∧ st.paused = false ∧ inp.exited = true then
    let st1 := { st with playgsf_pid := -1 }
    if st1.loop_mode = LoopMode.LOOP_OFF then
      draw_list_upd inp.max_lines { st1 with mode := Mode.MODE_LIST }
    else exit_respawn inp st1
  else st

/-- Elapsed-time step: recompute elapsed_seconds from the playback start
instant, only in playback mode with a live unpaused process. -/
def elapsed_step (inp : TickInput) (st : St) : St :=
  if st.mode = Mode.MODE_PLAYBACK ∧ st.playgsf_pid > 0 ∧ st.paused = false then
    { st with elapsed_seconds := inp.now - st.playback_start }
  else st

/-- The shared body of the two trigger branches: find the adjacent track in
the given direction and, when it differs from the current one, select it,
read its metadata (resetting playback_start only on success), kill the
current process and immediately launch the new one in this same step. -/
def trigger_switch (inp : TickInput) (forward : Bool) (st : St) : St :=
  let t := find_next_track st.entries st.selected_index forward
  if t ≠ st.selected_index then
    let st1 := { st with selected_index := t }
    let filepath :=
      st1.current_path ++ "/" ++ entry_name_at st1.entries st1.selected_index
    let st2 :=
      if inp.metaOk then
        { st1 with
            current_meta := { inp.metaVal with filename := filepath }
            playback_start := inp.now }
      else st1
    let st3 := kill_playgsf st2
    let st4 := (launch_playgsf st3 inp.forkResult).2
    let st5 := { st4 with paused := false }
    if st5.mode = Mode.MODE_LIST then draw_list_upd inp.max_lines st5 else st5
  else st

/-- Trigger-sampling step: runs whenever a controller is open and a pid is
held; fires the switch on a rising edge of either trigger, then records the
pressed states for the next iteration. -/
def trigger_step (inp : TickInput) (st : St) : St :=
  if inp.controller = true ∧ st.playgsf_pid > 0 then
    let l2p : Bool := decide (inp.l2 > TRIGGER_THRESHOLD)
    let r2p : Bool := decide (inp.r2 > TRIGGER_THRESHOLD)
    let st1 := if l2p = true ∧ st.l2_prev = false then trigger_switch inp false st else st
    let st2 := if r2p = true ∧ st.r2_prev = false then trigger_switch inp true st1 else st1
    { st2 with l2_prev := l2p, r2_prev := r2p }
  else st

/-- The list-mode switch over buttons. -/
def handle_list_button (inp : TickInput) (b : Button) (st : St) : St :=
  match b with
  | Button.DPAD_UP =>
    let st1 :=
      if st.selected_index > 0 then
        { st with selected_index := st.selected_index - 1 }
      else st
    draw_list_upd inp.max_lines st1
  | Button.DPAD_DOWN =>
    let st1 :=
      if st.selected_index < (st.entries.length : Int) - 1 then
        { st with selected_index := st.selected_index + 1 }
      else st
    draw_list_upd inp.max_lines st1
  | Button.LEFTSHOULDER =>
    let i := st.selected_index - 10
    draw_list_upd inp.max_lines
      { st with selected_index := if i < 0 then 0 else i }
  | Button.RIGHTSHOULDER =>
    let i := st.selected_index + 10
    draw_list_upd inp.max_lines
      { st with
          selected_index :=
            if i ≥ (st.entries.length : Int) then (st.entries.length : Int) - 1
            else i }
  | Button.DPAD_LEFT =>
    let p := find_next_track st.entries st.selected_index false
    if p ≠ st.selected_index then
      draw_list_upd inp.max_lines { st with selected_index := p }
    else st
  | Button.DPAD_RIGHT =>
    let n := find_next_track st.entries st.selected_index true
    if n ≠ st.selected_index then
      draw_list_upd inp.max_lines { st with selected_index := n }
    else st
  | Button.A =>
    if st.selected_index < 0 ∨ st.selected_index ≥ (st.entries.length : Int) then
      st
    else
      match st.entries.get? st.selected_index.toNat with
      | none => st
      | some sel =>
        if sel.is_dir then
          let newPath :=
            st.current_path ++ (if st.current_path = "/" then "" else "/") ++ sel.name
          draw_list_upd inp.max_lines
            (list_directory (inp.fs newPath) true { st with current_path := newPath })
        else
          let filepath := st.current_path ++ "/" ++ sel.name
          let st1 :=
            if inp.metaOk then
              { st with current_meta := { inp.metaVal with filename := filepath } }
            else st
          let st2 := (launch_playgsf st1 inp.forkResult).2
          { st2 with
              mode := Mode.MODE_PLAYBACK
              paused := false
              playback_start := inp.now }
  | Button.B =>
    if st.current_path ≠ MUSIC_ROOT then
      let newPath := parent_path st.current_path
      draw_list_upd inp.max_lines
        (list_directory (inp.fs newPath) true { st with current_path := newPath })
    else st
  | _ => st

/-- The shared body of the two playback-mode skip buttons (these reset
playback_start unconditionally, unlike the trigger path). -/
def playback_skip (inp : TickInput) (forward : Bool) (st : St) : St :=
  let t := find_next_track st.entries st.selected_index forward
  if t ≠ st.selected_index then
    let st1 := { st with selected_index := t }
    let st2 :=
      if inp.metaOk then
        { st1 with
            current_meta :=
              { inp.metaVal with
                  filename :=
                    st1.current_path ++ "/" ++
                      entry_name_at st1.entries st1.selected_index } }
      else st1
    let st3 := kill_playgsf st2
    let st4 := (launch_playgsf st3 inp.forkResult).2
    { st4 with paused := false, playback_start := inp.now }
  else st

/-- The playback-mode switch over buttons. -/
def handle_playback_button (inp : TickInput) (b : Button) (st : St) : St :=
  match b with
  | Button.B =>
    draw_list_upd inp.max_lines { kill_playgsf st with mode := Mode.MODE_LIST }
  | Button.DPAD_LEFT => playback_skip inp false st
  | Button.DPAD_RIGHT => playback_skip inp true st
  | Button.START =>
    if st.playgsf_pid > 0 then { st with paused := !st.paused } else st
  | _ => st

/-- The tail of the button handler once past the GUIDE toggle, the
screen-off gate and the BACK assignment: the Y loop cycle (playback only),
then the per-mode switches. -/
def handle_button_rest (inp : TickInput) (b : Button) (st0 : St) : St :=
  if st0.mode = Mode.MODE_PLAYBACK ∧ b = Button.Y then
    { st0 with loop_mode := loop_next st0.loop_mode }
  else if st0.mode = Mode.MODE_LIST then handle_list_button inp b st0
  else handle_playback_button inp b st0

/-- A controller button press: the GUIDE toggle comes first, then the
screen-off gate swallows everything else, then BACK stops the run loop,
then the Y loop cycle (playback only), then the per-mode switches. -/
def handle_button (inp : TickInput) (b : Button) (st : St) : St :=
  if b = Button.GUIDE then
    if st.screen_off = false then { st with screen_off := true }
    else
      let st1 := { st with screen_off := false }
      if st1.mode = Mode.MODE_LIST then draw_list_upd inp.max_lines st1 else st1
  else if st.screen_off = true then st
  else
    handle_button_rest inp b
      (if b = Button.BACK then { st with running := false } else st)

/-- One drained SDL event. -/
def handle_event (inp : TickInput) (st : St) (e : Event) : St :=
  match e with
  | Event.quit => { st with running := false }
  | Event.buttonDown b => handle_button inp b st
  | Event.other => st

/-- The SDL_PollEvent drain loop. -/
def run_events (inp : TickInput) (st : St) : St :=
  inp.events.foldl (handle_event inp) st

/-- One full iteration of the main while loop, in source order: exit
detection, elapsed-time update, trigger sampling, event drain. -/
def tick (inp : TickInput) (st : St) : St :=
  run_events inp (trigger_step inp (elapsed_step inp (exit_step inp st)))

/-- The main while loop over a finite stream of per-iteration inputs. -/
def run (st : St) : List TickInput → St
  | [] => st
  | i :: is => if st.running = true then run (tick i st) is else st

/-- The state right before the first loop iteration: globals initialised,
playback_start set to the startup instant t0, then the initial
list_directory of MUSIC_ROOT followed by the initial draw_list. -/
def init_st (fs0 : Option (List Entry)) (ml : Int) (t0 : Int) : St :=
  draw_list_upd ml (list_directory fs0 true
    { mode := Mode.MODE_LIST
      loop_mode := LoopMode.LOOP_ALL
      entries := []
      current_path := MUSIC_ROOT
      selected_index := 0
      scroll_offset := 0
      playgsf_pid := -1
      paused := false
      screen_off := false
      l2_prev := false
      r2_prev := false
      playback_start := t0
      elapsed_seconds := 0
      running := true
      current_meta := default })

/-! ### Shared concrete fixtures used by witnesses and counterexamples -/

/-- Two playable tracks, as a small concrete catalog. -/
def demo_tracks : List Entry :=
  [⟨"song.minigsf", false⟩, ⟨"tune.minigsf", false⟩]

/-- A filesystem holding demo_tracks at the music root. -/
def demo_fs : String → Option (List Entry) := fun p =>
  if p = MUSIC_ROOT then some demo_tracks else none

/-- A reachable state: playing track 0 of demo_tracks with pid 5. -/
def demo_playing_st : St :=
  { mode := Mode.MODE_PLAYBACK
    loop_mode := LoopMode.LOOP_ALL
    entries := demo_tracks
    current_path := MUSIC_ROOT
    selected_index := 0
    scroll_offset := 0
    playgsf_pid := 5
    paused := false
    screen_off := false
    l2_prev := false
    r2_prev := false
    playback_start := 0
    elapsed_seconds := 0
    running := true
    current_meta := default }

/-- A quiet tick input: no exit, no controller sticks, metadata reads
succeed, forks return pid 5, the given events are drained. -/
def mkInput (now : Int) (ev : List Event) : TickInput :=
  { now := now
    exited := false
    controller := false
    l2 := 0
    r2 := 0
    metaOk := true
    metaVal := default
    forkResult := 5
    max_lines := 20
    events := ev
    fs := demo_fs }

/-- Input for the C1 counterexample: a rising edge on the right trigger
(sample 20000 above the 16000 threshold, previous sample below) with a
fork that returns pid 6. -/
def c1_inp : TickInput :=
  { mkInput 50 [] with controller := true, r2 := 20000, forkResult := 6 }

/-- State for the C2 counterexample: playing pid 7, loop Off, 30-second
track length metadata, playback started at instant 0. -/
def c2_state : St :=
  { demo_playing_st with
      playgsf_pid := 7
      loop_mode := LoopMode.LOOP_OFF
      current_meta := { (default : TrackMetadata) with length := "0:30" } }

/-- State for the C8 theorems: playing track 0 under RepeatOne. -/
def c8_state : St := { demo_playing_st with loop_mode := LoopMode.LOOP_ONE }

/-- Input for the C8 counterexample: natural exit at t=30 whose metadata
re-read fails; the fork for the respawn returns pid 6. -/
def c8_inp : TickInput :=
  { mkInput 30 [] with exited := true, metaOk := false, forkResult := 6 }

/-- Input for the C8 witness: natural exit at t=30 with the metadata read
succeeding. -/
def c8w_inp : TickInput :=
  { mkInput 30 [] with exited := true, forkResult := 6 }

/-- State for the C3 witness: playing but paused, counter frozen at 5. -/
def c3w_st : St := { demo_playing_st with paused := true, elapsed_seconds := 5 }

/-- The core controller invariant (facts about mode, pid, paused and the
catalog): list mode implies no process; pids are -1 or positive; paused
implies a live process; playback mode implies a non-empty catalog. -/
def InvCore (st : St) : Prop :=
  (st.mode = Mode.MODE_LIST → st.playgsf_pid = -1) ∧
  (st.playgsf_pid = -1 ∨ st.playgsf_pid > 0) ∧
  (st.paused = true → st.playgsf_pid > 0) ∧
  (st.mode = Mode.MODE_PLAYBACK → st.entries ≠ [])

/-- The full inductive controller invariant: the core plus the selection
clamp (0 on an empty catalog, in range otherwise). -/
def Inv (st : St) : Prop :=
  InvCore st ∧
  (st.entries = [] → st.selected_index = 0) ∧
  (st.entries ≠ [] →
    0 ≤ st.selected_index ∧ st.selected_index < (st.entries.length : Int))

/-! ### Order facts about the sort comparator -/

lemma chars_lt_asymm :
    ∀ x y : List Char, chars_lt x y = true → chars_lt y x = true → False := by
  intro x
  induction x with
  | nil =>
    intro y hxy hyx
    cases y with
    | nil => simp [chars_lt] at hxy
    | cons d ds => simp [chars_lt] at hyx
  | cons c cs ih =>
    intro y hxy hyx
    cases y with
    | nil => simp [chars_lt] at hxy
    | cons d ds =>
      unfold chars_lt at hxy hyx
      rcases lt_trichotomy c d with h | h | h
      · rw [if_neg (lt_asymm h), if_pos h] at hyx
        simp at hyx
      · subst h
        rw [if_neg (lt_irrefl c), if_neg (lt_irrefl c)] at hxy hyx
        exact ih ds hxy hyx
      · rw [if_neg (lt_asymm h), if_pos h] at hxy
        simp at hxy

lemma chars_lt_weak_trans :
    ∀ c a b : List Char,
      chars_lt c a = true → chars_lt c b = true ∨ chars_lt b a = true := by
  intro c
  induction c with
  | nil =>
    intro a b h
    cases a with
    | nil => simp [chars_lt] at h
    | cons a0 as =>
      cases b with
      | nil => exact Or.inr rfl
      | cons b0 bs => exact Or.inl rfl
  | cons c0 cs ih =>
    intro a b h
    cases a with
    | nil => simp [chars_lt] at h
    | cons a0 as =>
      cases b with
      | nil => exact Or.inr rfl
      | cons b0 bs =>
        unfold chars_lt at h ⊢
        rcases lt_trichotomy c0 b0 with hcb | hcb | hcb
        · exact Or.inl (by rw [if_pos hcb])
        · subst hcb
          rcases lt_trichotomy c0 a0 with hca | hca | hca
          · exact Or.inr (by rw [if_pos hca])
          · subst hca
            rw [if_neg (lt_irrefl c0), if_neg (lt_irrefl c0)] at h
            rcases ih as bs h with h1 | h1
            · exact Or.inl (by rw [if_neg (lt_irrefl c0), if_neg (lt_irrefl c0)]; exact h1)
            · exact Or.inr (by rw [if_neg (lt_irrefl c0), if_neg (lt_irrefl c0)]; exact h1)
          · rw [if_neg (lt_asymm hca), if_pos hca] at h
            simp at h
        · rcases lt_trichotomy c0 a0 with hca | hca | hca
          · exact Or.inr (by rw [if_pos (hcb.trans hca)])
          · exact Or.inr (by rw [hca] at hcb; rw [if_pos hcb])
          · rw [if_neg (lt_asymm hca), if_pos hca] at h
            simp at h

lemma entry_lt_asymm (a b : Entry) :
    entry_lt a b = true → entry_lt b a = true → False := by
  intro hab hba
  unfold entry_lt str_lt at hab hba
  by_cases h : a.is_dir = b.is_dir
  · rw [if_pos h] at hab
    rw [if_pos h.symm] at hba
    exact chars_lt_asymm _ _ hab hba
  · rw [if_neg h] at hab
    rw [if_neg (fun hh => h hh.symm)] at hba
    exact h (hab.trans hba.symm)

lemma entry_lt_weak_trans (a b c : Entry) :
    entry_lt c a = true → entry_lt c b = true ∨ entry_lt b a = true := by
  intro h
  unfold entry_lt str_lt at h ⊢
  by_cases hca : c.is_dir = a.is_dir
  · rw [if_pos hca] at h
    by_cases hcb : c.is_dir = b.is_dir
    · have hba : b.is_dir = a.is_dir := by rw [← hcb, hca]
      rw [if_pos hcb, if_pos hba]
      exact chars_lt_weak_trans _ _ _ h
    · by_cases hct : c.is_dir = true
      · exact Or.inl (by rw [if_neg hcb]; exact hct)
      · have hcf : c.is_dir = false := by
          cases hcd : c.is_dir
          · rfl
          · exact absurd hcd hct
        have hbt : b.is_dir = true := by
          cases hbd : b.is_dir
          · exact absurd (by rw [hcf, hbd]) hcb
          · rfl
        have hba : ¬ b.is_dir = a.is_dir := by
          rw [hbt, ← hca, hcf]
          simp
        exact Or.inr (by rw [if_neg hba]; exact hbt)
  · rw [if_neg hca] at h
    by_cases hcb : c.is_dir = b.is_dir
    · have hba : ¬ b.is_dir = a.is_dir := by
        rw [← hcb]
        exact hca
      refine Or.inr ?_
      rw [if_neg hba, ← hcb]
      exact h
    · exact Or.inl (by rw [if_neg hcb]; exact h)

instance : IsTotal Entry entry_le :=
  ⟨fun a b => by
    cases hba : entry_lt b a
    · exact Or.inl hba
    · cases hab : entry_lt a b
      · exact Or.inr hab
      · exact (entry_lt_asymm a b hab hba).elim⟩

instance : IsTrans Entry entry_le :=
  ⟨fun a b c h1 h2 => by
    cases hca : entry_lt c a
    · exact hca
    · rcases entry_lt_weak_trans a b c hca with hcb | hba
      · rw [entry_le, hcb] at h2
        simp at h2
      · rw [entry_le, hba] at h1
        simp at h1⟩

lemma sorted_entries_sorted (l : List Entry) :
    List.Sorted entry_le (sorted_entries l) :=
  List.sorted_insertionSort entry_le _

/-- The boolean comparator dominates the Mathlib lexicographic order used
to state the spec-side property. -/
lemma list_lt_chars_lt : ∀ {x y : List Char}, x < y → chars_lt x y = true := by
  intro x y h
  induction h with
  | nil => rfl
  | cons _ ih =>
    unfold chars_lt
    rw [if_neg (lt_irrefl _), if_neg (lt_irrefl _)]
    exact ih
  | rel hlt =>
    unfold chars_lt
    rw [if_pos hlt]

lemma entry_le_imp (a b : Entry) (h : entry_le a b) :
    (a.is_dir = false → b.is_dir = false) ∧
      (a.is_dir = b.is_dir → a.name ≤ b.name) := by
  unfold entry_le entry_lt str_lt at h
  constructor
  · intro ha
    cases hbd : b.is_dir
    · rfl
    · rw [if_neg (by rw [hbd, ha]; simp), hbd] at h
      simp at h
  · intro he
    rw [if_pos he.symm] at h
    refine le_of_not_lt fun hlt => ?_
    have h2 := list_lt_chars_lt (String.lt_iff_toList_lt.mp hlt)
    rw [h2] at h
    simp at h

lemma list_directory_entries (l : List Entry) (reset : Bool) (st : St) :
    (list_directory (some l) reset st).entries = sorted_entries l := by
  simp [list_directory]

/-- C7: listing a directory yields all directories before all files, with
ascending lexicographic order by name within each group; the catalog
[b.minigsf, A (dir), a.minigsf] sorts to [A (dir), a.minigsf, b.minigsf].
The produced catalog is moreover a permutation of the kept raw entries. -/
theorem c7_directories_first_sorted (raw : List Entry) (reset : Bool) (st : St) :
    List.Pairwise
      (fun a b => (a.is_dir = false → b.is_dir = false) ∧
        (a.is_dir = b.is_dir → a.name ≤ b.name))
      (list_directory (some raw) reset st).entries ∧
    List.Perm (list_directory (some raw) reset st).entries (raw.filter keep_entry) ∧
    (list_directory
        (some [⟨"b.minigsf", false⟩, ⟨"A", true⟩, ⟨"a.minigsf", false⟩])
        reset st).entries
      = [⟨"A", true⟩, ⟨"a.minigsf", false⟩, ⟨"b.minigsf", false⟩] := by
  refine ⟨?_, ?_, ?_⟩
  · rw [list_directory_entries]
    exact (sorted_entries_sorted raw).imp (fun h => entry_le_imp _ _ h)
  · rw [list_directory_entries]
    exact List.perm_insertionSort entry_le _
  · rw [list_directory_entries]
    decide

/-! ### C5: spawn exclusivity -/

/-- C5: a spawn issued while a process handle is held fails with no side
effects, and after a terminate the handle is -1 so a following spawn (with
a successful fork) is accepted. -/
theorem c5_spawn_exclusive (st : St) (fr fr2 : Int) :
    (st.playgsf_pid ≠ -1 → launch_playgsf st fr = (false, st)) ∧
    ((st.playgsf_pid = -1 ∨ st.playgsf_pid > 0) →
      (kill_playgsf st).playgsf_pid = -1 ∧
      (fr2 > 0 →
        (launch_playgsf (kill_playgsf st) fr2).1 = true ∧
        (launch_playgsf (kill_playgsf st) fr2).2.playgsf_pid = fr2)) := by
  constructor
  · intro h
    simp [launch_playgsf, h]
  · intro h
    have hk : (kill_playgsf st).playgsf_pid = -1 := by
      unfold kill_playgsf
      rcases h with h | h
      · rw [if_neg (by omega)]
        exact h
      · rw [if_pos h]
    refine ⟨hk, fun hf => ?_⟩
    simp [launch_playgsf, hk, hf]

theorem c5_witness :
    launch_playgsf demo_playing_st 9 = (false, demo_playing_st) ∧
    (kill_playgsf demo_playing_st).playgsf_pid = -1 ∧
    (launch_playgsf (kill_playgsf demo_playing_st) 9).1 = true := by
  have h := c5_spawn_exclusive demo_playing_st 9 9
  exact ⟨h.1 (by decide), (h.2 (by decide)).1, ((h.2 (by decide)).2 (by decide)).1⟩

/-! ### C6: adjacent-track search with no playable file -/

lemma get?_mem_entry : ∀ (l : List Entry) (n : Nat) (e : Entry),
    l.get? n = some e → e ∈ l := by
  intro l
  induction l with
  | nil =>
    intro n e h
    simp [List.get?] at h
  | cons a t ih =>
    intro n e h
    cases n with
    | zero =>
      simp [List.get?] at h
      simp [h]
    | succ m =>
      rw [List.get?] at h
      exact List.mem_cons_of_mem _ (ih m e h)

lemma playable_at_spec (entries : List Entry) (i : Int)
    (h : playable_at entries i = true) :
    ∃ e ∈ entries, e.is_dir = false ∧ is_valid_music e.name = true := by
  unfold playable_at at h
  rcases hg : entries.get? i.toNat with _ | e
  · rw [hg] at h
    simp at h
  · rw [hg] at h
    simp only [Bool.and_eq_true, Bool.not_eq_true'] at h
    exact ⟨e, get?_mem_entry _ _ _ hg, h.1, h.2⟩

lemma no_playable_fnt (entries : List Entry) (cur : Int) (fwd : Bool)
    (h : ∀ e ∈ entries, e.is_dir = true ∨ is_valid_music e.name = false) :
    ∀ fuel idx, fnt_loop entries cur fwd fuel idx = cur := by
  intro fuel
  induction fuel with
  | zero => intro idx; rfl
  | succ n ih =>
    intro idx
    have hp : ∀ j : Int, playable_at entries j = false := by
      intro j
      cases hpj : playable_at entries j
      · rfl
      · obtain ⟨e, hmem, hdir, hmus⟩ := playable_at_spec entries j hpj
        rcases h e hmem with hh | hh
        · rw [hdir] at hh
          exact absurd hh (by simp)
        · rw [hmus] at hh
          exact absurd hh (by simp)
    have key : ∀ j : Int,
        (if playable_at entries j = true then j
         else if j = cur then cur else fnt_loop entries cur fwd n j) = cur := by
      intro j
      rw [hp, if_neg Bool.false_ne_true]
      split
      · rfl
      · exact ih j
    simp only [fnt_loop]
    exact key _

/-- C6 (amended): on a non-empty catalog with zero playable files the
circular search returns the input index unchanged, and the result is the
same for every fuel value, so the len-step budget of the C loop suffices;
on the empty catalog the function instead returns -1 immediately. -/
theorem c6_no_playable_returns_current (entries : List Entry) (cur : Int)
    (fwd : Bool)
    (h : ∀ e ∈ entries, e.is_dir = true ∨ is_valid_music e.name = false)
    (hne : entries ≠ []) :
    find_next_track entries cur fwd = cur ∧
    ∀ fuel idx, fnt_loop entries cur fwd fuel idx = cur := by
  have hl := no_playable_fnt entries cur fwd h
  refine ⟨?_, hl⟩
  unfold find_next_track
  rw [if_neg (by simpa [List.length_eq_zero] using hne)]
  exact hl _ _

/-- C6 counterexample: on the empty catalog (which has zero playable
files) the search started at index 0 returns -1, not the input index. -/
theorem c6_counterexample :
    find_next_track ([] : List Entry) 0 true = -1 ∧
    find_next_track ([] : List Entry) 0 true ≠ 0 := by
  decide

theorem c6_witness : find_next_track [⟨"A", true⟩] 0 true = 0 :=
  (c6_no_playable_returns_current [⟨"A", true⟩] 0 true (by decide) (by decide)).1

/-! ### Projection lemmas for the state transformers -/

@[simp]
lemma draw_running (ml : Int) (st : St) :
    (draw_list_upd ml st).running = st.running := by
  simp only [draw_list_upd]
  split <;> rfl

@[simp]
lemma draw_mode (ml : Int) (st : St) :
    (draw_list_upd ml st).mode = st.mode := by
  simp only [draw_list_upd]
  split <;> rfl

@[simp]
lemma draw_pid (ml : Int) (st : St) :
    (draw_list_upd ml st).playgsf_pid = st.playgsf_pid := by
  simp only [draw_list_upd]
  split <;> rfl

@[simp]
lemma draw_paused (ml : Int) (st : St) :
    (draw_list_upd ml st).paused = st.paused := by
  simp only [draw_list_upd]
  split <;> rfl

@[simp]
lemma draw_entries (ml : Int) (st : St) :
    (draw_list_upd ml st).entries = st.entries := by
  simp only [draw_list_upd]
  split <;> rfl

@[simp]
lemma kill_running (st : St) : (kill_playgsf st).running = st.running := by
  unfold kill_playgsf
  split <;> rfl

@[simp]
lemma kill_mode (st : St) : (kill_playgsf st).mode = st.mode := by
  unfold kill_playgsf
  split <;> rfl

@[simp]
lemma kill_entries (st : St) : (kill_playgsf st).entries = st.entries := by
  unfold kill_playgsf
  split <;> rfl

@[simp]
lemma kill_sel (st : St) :
    (kill_playgsf st).selected_index = st.selected_index := by
  unfold kill_playgsf
  split <;> rfl

@[simp]
lemma launch_running (st : St) (fr : Int) :
    ((launch_playgsf st fr).2).running = st.running := by
  unfold launch_playgsf
  split_ifs <;> rfl

@[simp]
lemma launch_mode (st : St) (fr : Int) :
    ((launch_playgsf st fr).2).mode = st.mode := by
  unfold launch_playgsf
  split_ifs <;> rfl

@[simp]
lemma launch_entries (st : St) (fr : Int) :
    ((launch_playgsf st fr).2).entries = st.entries := by
  unfold launch_playgsf
  split_ifs <;> rfl

@[simp]
lemma launch_sel (st : St) (fr : Int) :
    ((launch_playgsf st fr).2).selected_index = st.selected_index := by
  unfold launch_playgsf
  split_ifs <;> rfl

@[simp]
lemma launch_pstart (st : St) (fr : Int) :
    ((launch_playgsf st fr).2).playback_start = st.playback_start := by
  unfold launch_playgsf
  split_ifs <;> rfl

@[simp]
lemma launch_l2prev (st : St) (fr : Int) :
    ((launch_playgsf st fr).2).l2_prev = st.l2_prev := by
  unfold launch_playgsf
  split_ifs <;> rfl

@[simp]
lemma launch_r2prev (st : St) (fr : Int) :
    ((launch_playgsf st fr).2).r2_prev = st.r2_prev := by
  unfold launch_playgsf
  split_ifs <;> rfl

@[simp]
lemma launch_screen (st : St) (fr : Int) :
    ((launch_playgsf st fr).2).screen_off = st.screen_off := by
  unfold launch_playgsf
  split_ifs <;> rfl

@[simp]
lemma launch_path (st : St) (fr : Int) :
    ((launch_playgsf st fr).2).current_path = st.current_path := by
  unfold launch_playgsf
  split_ifs <;> rfl

@[simp]
lemma launch_loop (st : St) (fr : Int) :
    ((launch_playgsf st fr).2).loop_mode = st.loop_mode := by
  unfold launch_playgsf
  split_ifs <;> rfl

@[simp]
lemma kill_l2prev (st : St) : (kill_playgsf st).l2_prev = st.l2_prev := by
  unfold kill_playgsf
  split <;> rfl

@[simp]
lemma kill_r2prev (st : St) : (kill_playgsf st).r2_prev = st.r2_prev := by
  unfold kill_playgsf
  split <;> rfl

@[simp]
lemma kill_pstart (st : St) :
    (kill_playgsf st).playback_start = st.playback_start := by
  unfold kill_playgsf
  split <;> rfl

@[simp]
lemma kill_screen (st : St) : (kill_playgsf st).screen_off = st.screen_off := by
  unfold kill_playgsf
  split <;> rfl

@[simp]
lemma kill_path (st : St) : (kill_playgsf st).current_path = st.current_path := by
  unfold kill_playgsf
  split <;> rfl

@[simp]
lemma kill_loop (st : St) : (kill_playgsf st).loop_mode = st.loop_mode := by
  unfold kill_playgsf
  split <;> rfl

@[simp]
lemma list_directory_running (raw : Option (List Entry)) (reset : Bool) (st : St) :
    (list_directory raw reset st).running = st.running := by
  cases raw <;> simp only [list_directory]

@[simp]
lemma list_directory_mode (raw : Option (List Entry)) (reset : Bool) (st : St) :
    (list_directory raw reset st).mode = st.mode := by
  cases raw <;> simp only [list_directory]

@[simp]
lemma list_directory_pid (raw : Option (List Entry)) (reset : Bool) (st : St) :
    (list_directory raw reset st).playgsf_pid = st.playgsf_pid := by
  cases raw <;> simp only [list_directory]

@[simp]
lemma list_directory_paused (raw : Option (List Entry)) (reset : Bool) (st : St) :
    (list_directory raw reset st).paused = st.paused := by
  cases raw <;> simp only [list_directory]

lemma launch_of_held (st : St) (fr : Int) (h : st.playgsf_pid ≠ -1) :
    launch_playgsf st fr = (false, st) := by
  unfold launch_playgsf
  rw [if_pos h]

lemma launch_pid (st : St) (fr : Int) (h : st.playgsf_pid = -1) :
    ((launch_playgsf st fr).2).playgsf_pid = (if fr > 0 then fr else -1) := by
  unfold launch_playgsf
  rw [if_neg (by rw [h]; simp)]
  split_ifs <;> simp [h]

lemma launch_paused (st : St) (fr : Int) (h : st.playgsf_pid = -1) :
    ((launch_playgsf st fr).2).paused = (if fr > 0 then false else st.paused) := by
  unfold launch_playgsf
  rw [if_neg (by rw [h]; simp)]
  split_ifs <;> rfl

lemma kill_pid (st : St) (h : st.playgsf_pid = -1 ∨ st.playgsf_pid > 0) :
    (kill_playgsf st).playgsf_pid = -1 := by
  unfold kill_playgsf
  rcases h with h | h
  · rw [if_neg (by omega)]
    exact h
  · rw [if_pos h]

lemma kill_paused (st : St) (h : st.paused = true → st.playgsf_pid > 0) :
    (kill_playgsf st).paused = false := by
  unfold kill_playgsf
  split_ifs with hp
  · rfl
  · cases hpa : st.paused
    · rfl
    · exact absurd (h hpa) hp

lemma exit_respawn_running (inp : TickInput) (st1 : St) :
    (exit_respawn inp st1).running = st1.running := by
  simp only [exit_respawn]
  split_ifs <;> simp

lemma exit_running (inp : TickInput) (st : St) :
    (exit_step inp st).running = st.running := by
  simp only [exit_step]
  split_ifs <;> simp [exit_respawn_running]

lemma elapsed_running (inp : TickInput) (st : St) :
    (elapsed_step inp st).running = st.running := by
  simp only [elapsed_step]
  split <;> rfl

lemma trigger_switch_running (inp : TickInput) (fwd : Bool) (st : St) :
    (trigger_switch inp fwd st).running = st.running := by
  simp only [trigger_switch]
  split_ifs <;> simp

lemma trigger_running (inp : TickInput) (st : St) :
    (trigger_step inp st).running = st.running := by
  simp only [trigger_step]
  split_ifs <;> simp [apply_ite, trigger_switch_running]

lemma playback_skip_running (inp : TickInput) (fwd : Bool) (st : St) :
    (playback_skip inp fwd st).running = st.running := by
  simp only [playback_skip]
  split_ifs <;> simp

lemma handle_list_running (inp : TickInput) (b : Button) (st : St) :
    (handle_list_button inp b st).running = st.running := by
  cases b with
  | DPAD_UP => simp only [handle_list_button]; split_ifs <;> simp
  | DPAD_DOWN => simp only [handle_list_button]; split_ifs <;> simp
  | LEFTSHOULDER => simp only [handle_list_button]; simp
  | RIGHTSHOULDER => simp only [handle_list_button]; simp
  | DPAD_LEFT => simp only [handle_list_button]; split_ifs <;> simp
  | DPAD_RIGHT => simp only [handle_list_button]; split_ifs <;> simp
  | A =>
    simp only [handle_list_button]
    split
    · rfl
    · rcases hg : st.entries.get? st.selected_index.toNat with _ | e
      · rfl
      · by_cases hd : e.is_dir = true <;> simp [hd, apply_ite]
  | B => simp only [handle_list_button]; split_ifs <;> simp
  | GUIDE => rfl
  | BACK => rfl
  | Y => rfl
  | START => rfl
  | OTHER => rfl

lemma handle_playback_running (inp : TickInput) (b : Button) (st : St) :
    (handle_playback_button inp b st).running = st.running := by
  cases b with
  | B => simp only [handle_playback_button]; simp
  | DPAD_LEFT => exact playback_skip_running inp false st
  | DPAD_RIGHT => exact playback_skip_running inp true st
  | START => simp only [handle_playback_button]; split_ifs <;> rfl
  | GUIDE => rfl
  | BACK => rfl
  | Y => rfl
  | DPAD_UP => rfl
  | DPAD_DOWN => rfl
  | LEFTSHOULDER => rfl
  | RIGHTSHOULDER => rfl
  | A => rfl
  | OTHER => rfl

lemma handle_button_rest_running (inp : TickInput) (b : Button) (st0 : St) :
    (handle_button_rest inp b st0).running = st0.running := by
  unfold handle_button_rest
  split_ifs <;> simp [handle_list_running, handle_playback_running]

lemma handle_button_running_false (inp : TickInput) (b : Button) (st : St)
    (h : st.running = false) : (handle_button inp b st).running = false := by
  unfold handle_button
  by_cases hg : b = Button.GUIDE
  · rw [if_pos hg]
    split_ifs with h1
    · simp [h]
    · simp [h, apply_ite]
  · rw [if_neg hg]
    by_cases hs : st.screen_off = true
    · rw [if_pos hs]
      exact h
    · rw [if_neg hs, handle_button_rest_running]
      split_ifs <;> simp [h]

lemma handle_event_running_false (inp : TickInput) (e : Event) (st : St)
    (h : st.running = false) : (handle_event inp st e).running = false := by
  cases e with
  | quit => rfl
  | buttonDown b => exact handle_button_running_false inp b st h
  | other => exact h

lemma foldl_running_false (inp : TickInput) :
    ∀ (l : List Event) (st : St), st.running = false →
      (l.foldl (handle_event inp) st).running = false := by
  intro l
  induction l with
  | nil => intro st h; exact h
  | cons e t ih =>
    intro st h
    exact ih _ (handle_event_running_false inp e st h)

lemma foldl_quit (inp : TickInput) :
    ∀ (l : List Event) (st : St), Event.quit ∈ l →
      (l.foldl (handle_event inp) st).running = false := by
  intro l
  induction l with
  | nil => intro st h; cases h
  | cons e t ih =>
    intro st h
    rcases List.mem_cons.mp h with h | h
    · subst h
      exact foldl_running_false inp t _ rfl
    · exact ih _ h

/-! ### C9: the quit event -/

/-- C9: the dedicated quit event (SDL_QUIT, tested before the controller
button handling and hence before the screen-off input gate) terminates the
run loop in every controller state, including while the screen is blanked. -/
theorem c9_quit_unconditional (st : St) (inp : TickInput)
    (h : Event.quit ∈ inp.events) : (tick inp st).running = false := by
  unfold tick run_events
  exact foldl_quit inp inp.events _ h

theorem c9_witness :
    (tick (mkInput 0 [Event.buttonDown Button.A, Event.quit])
        { demo_playing_st with screen_off := true }).running = false :=
  c9_quit_unconditional _ _ (by decide)

/-! ### C2: no duration-based termination exists -/

/-- C2 (amended): the controller performs no duration-based termination at
all.  When the process has not exited on its own, the exit-detection and
elapsed-time steps leave the process handle and the mode unchanged,
regardless of loop policy, of the parsed track length, and of how far
elapsed time has run past it. -/
theorem c2_no_duration_enforcement (st : St) (inp : TickInput)
    (h : inp.exited = false) :
    (elapsed_step inp (exit_step inp st)).playgsf_pid = st.playgsf_pid ∧
    (elapsed_step inp (exit_step inp st)).mode = st.mode := by
  have he : exit_step inp st = st := by
    unfold exit_step
    rw [if_neg]
    intro hc
    rw [h] at hc
    exact absurd hc.2.2 (by simp)
  rw [he]
  unfold elapsed_step
  split
  · exact ⟨rfl, rfl⟩
  · exact ⟨rfl, rfl⟩

/-- C2 counterexample: playing under loop Off with track length metadata
"0:30" (30 seconds) and playback started at 0, a tick at t=100 leaves the
process running (pid 7) with elapsed 100, far past both the nominal
duration and any 5-second grace, instead of force-terminating it. -/
theorem c2_counterexample :
    (tick (mkInput 100 []) c2_state).playgsf_pid = 7 ∧
    (tick (mkInput 100 []) c2_state).elapsed_seconds = 100 ∧
    c2_state.current_meta.length = "0:30" := by
  decide

theorem c2_witness :
    (elapsed_step (mkInput 100 []) (exit_step (mkInput 100 []) c2_state)).playgsf_pid
      = c2_state.playgsf_pid ∧
    (elapsed_step (mkInput 100 []) (exit_step (mkInput 100 []) c2_state)).mode
      = c2_state.mode :=
  c2_no_duration_enforcement c2_state (mkInput 100 []) (by decide)

/-! ### C8: RepeatOne natural exit -/

/-- C8 (amended): under RepeatOne a natural exit keeps the selection on the
same track and respawns it (pid becomes the fork result on fork success,
otherwise -1), but the elapsed-time origin is reset to the exit instant
only when the metadata re-read succeeds; when it fails, playback_start is
left unchanged, so elapsed time does not restart from 0. -/
lemma exit_respawn_one_effect (inp : TickInput) (st1 : St)
    (hpid : st1.playgsf_pid = -1) (hmode : st1.mode = Mode.MODE_PLAYBACK)
    (hloop : st1.loop_mode = LoopMode.LOOP_ONE) :
    (exit_respawn inp st1).selected_index = st1.selected_index ∧
    (exit_respawn inp st1).playgsf_pid
      = (if inp.forkResult > 0 then inp.forkResult else -1) ∧
    (exit_respawn inp st1).playback_start
      = (if inp.metaOk = true then inp.now else st1.playback_start) ∧
    (exit_respawn inp st1).mode = Mode.MODE_PLAYBACK := by
  cases hmk : inp.metaOk <;>
    simp [exit_respawn, hloop, hmk, hmode, hpid, launch_pid, launch_paused]

theorem c8_repeat_one_respawn (st : St) (inp : TickInput)
    (hpid : st.playgsf_pid > 0) (hpaused : st.paused = false)
    (hexit : inp.exited = true) (hloop : st.loop_mode = LoopMode.LOOP_ONE)
    (hmode : st.mode = Mode.MODE_PLAYBACK) :
    (exit_step inp st).selected_index = st.selected_index ∧
    (exit_step inp st).playgsf_pid
      = (if inp.forkResult > 0 then inp.forkResult else -1) ∧
    (exit_step inp st).playback_start
      = (if inp.metaOk = true then inp.now else st.playback_start) ∧
    (exit_step inp st).mode = Mode.MODE_PLAYBACK := by
  have hstep : exit_step inp st = exit_respawn inp { st with playgsf_pid := -1 } := by
    unfold exit_step
    rw [if_pos ⟨hpid, hpaused, hexit⟩, if_neg (by simp [hloop])]
  rw [hstep]
  have heff := exit_respawn_one_effect inp { st with playgsf_pid := -1 }
    (by simp) (by simp [hmode]) (by simp [hloop])
  simpa using heff

/-- C8 counterexample: RepeatOne natural exit at t=30 whose metadata
re-read fails; the same track is respawned (pid 6, selection still 0) but
playback_start stays 0, so the same tick already reports elapsed 30
instead of resetting to 0. -/
theorem c8_counterexample :
    (tick c8_inp c8_state).selected_index = 0 ∧
    (tick c8_inp c8_state).playgsf_pid = 6 ∧
    (tick c8_inp c8_state).playback_start = 0 ∧
    (tick c8_inp c8_state).elapsed_seconds = 30 ∧
    ¬ (tick c8_inp c8_state).elapsed_seconds = 0 := by
  decide

theorem c8_witness :
    (exit_step c8w_inp c8_state).selected_index = c8_state.selected_index ∧
    (exit_step c8w_inp c8_state).playgsf_pid
      = (if c8w_inp.forkResult > 0 then c8w_inp.forkResult else -1) ∧
    (exit_step c8w_inp c8_state).playback_start
      = (if c8w_inp.metaOk = true then c8w_inp.now else c8_state.playback_start) ∧
    (exit_step c8w_inp c8_state).mode = Mode.MODE_PLAYBACK :=
  c8_repeat_one_respawn c8_state c8w_inp (by decide) (by decide) (by decide)
    (by decide) (by decide)

/-! ### C1: trigger edges switch within the same tick -/

lemma trigger_switch_effect (st : St) (inp : TickInput) (fwd : Bool)
    (hsane : st.playgsf_pid = -1 ∨ st.playgsf_pid > 0)
    (hp5 : st.paused = true → st.playgsf_pid > 0)
    (hmode : st.mode = Mode.MODE_PLAYBACK)
    (hadj : find_next_track st.entries st.selected_index fwd ≠ st.selected_index) :
    (trigger_switch inp fwd st).selected_index
      = find_next_track st.entries st.selected_index fwd ∧
    (trigger_switch inp fwd st).playgsf_pid
      = (if inp.forkResult > 0 then inp.forkResult else -1) ∧
    (trigger_switch inp fwd st).paused = false ∧
    (trigger_switch inp fwd st).playback_start
      = (if inp.metaOk = true then inp.now else st.playback_start) ∧
    (trigger_switch inp fwd st).mode = Mode.MODE_PLAYBACK ∧
    (trigger_switch inp fwd st).l2_prev = st.l2_prev ∧
    (trigger_switch inp fwd st).r2_prev = st.r2_prev ∧
    (trigger_switch inp fwd st).entries = st.entries := by
  unfold trigger_switch
  rw [if_pos hadj]
  cases hmk : inp.metaOk <;>
    simp [hmk, hsane, hp5, hmode, launch_pid, launch_paused, kill_pid,
      kill_paused]

lemma trigger_step_fire_r2 (inp : TickInput) (st : St)
    (hc : inp.controller = true) (hpid : st.playgsf_pid > 0)
    (hl2 : ¬ (inp.l2 > TRIGGER_THRESHOLD)) (hr2 : inp.r2 > TRIGGER_THRESHOLD)
    (hprev : st.r2_prev = false) :
    trigger_step inp st
      = { trigger_switch inp true st with l2_prev := false, r2_prev := true } := by
  have e1 : decide (inp.l2 > TRIGGER_THRESHOLD) = false := decide_eq_false hl2
  have e2 : decide (inp.r2 > TRIGGER_THRESHOLD) = true := decide_eq_true hr2
  unfold trigger_step
  rw [if_pos ⟨hc, hpid⟩]
  simp [e1, e2, hprev]

lemma trigger_step_fire_l2 (inp : TickInput) (st : St)
    (hc : inp.controller = true) (hpid : st.playgsf_pid > 0)
    (hl2 : inp.l2 > TRIGGER_THRESHOLD) (hr2 : ¬ (inp.r2 > TRIGGER_THRESHOLD))
    (hprev : st.l2_prev = false) :
    trigger_step inp st
      = { trigger_switch inp false st with l2_prev := true, r2_prev := false } := by
  have e1 : decide (inp.l2 > TRIGGER_THRESHOLD) = true := decide_eq_true hl2
  have e2 : decide (inp.r2 > TRIGGER_THRESHOLD) = false := decide_eq_false hr2
  unfold trigger_step
  rw [if_pos ⟨hc, hpid⟩]
  simp [e1, e2, hprev]

/-- C1 (amended): on a rising edge of either analog trigger while a
process is held, when an adjacent playable track exists the controller
switches within the same trigger-sampling step: it selects the adjacent
track, kills the old process and immediately launches the new one (pid
becomes the fork result), leaving no pending intent behind; nothing is
deferred to the next exit-detection step. -/
theorem c1_trigger_edge_switches_same_tick (st : St) (inp : TickInput)
    (hc : inp.controller = true) (hpid : st.playgsf_pid > 0)
    (hmode : st.mode = Mode.MODE_PLAYBACK) :
    (st.r2_prev = false → inp.r2 > TRIGGER_THRESHOLD →
      ¬ (inp.l2 > TRIGGER_THRESHOLD) →
      find_next_track st.entries st.selected_index true ≠ st.selected_index →
      (trigger_step inp st).selected_index
        = find_next_track st.entries st.selected_index true ∧
      (trigger_step inp st).playgsf_pid
        = (if inp.forkResult > 0 then inp.forkResult else -1) ∧
      (trigger_step inp st).paused = false ∧
      (trigger_step inp st).playback_start
        = (if inp.metaOk = true then inp.now else st.playback_start) ∧
      (trigger_step inp st).r2_prev = true ∧
      (trigger_step inp st).l2_prev = false) ∧
    (st.l2_prev = false → inp.l2 > TRIGGER_THRESHOLD →
      ¬ (inp.r2 > TRIGGER_THRESHOLD) →
      find_next_track st.entries st.selected_index false ≠ st.selected_index →
      (trigger_step inp st).selected_index
        = find_next_track st.entries st.selected_index false ∧
      (trigger_step inp st).playgsf_pid
        = (if inp.forkResult > 0 then inp.forkResult else -1) ∧
      (trigger_step inp st).paused = false ∧
      (trigger_step inp st).playback_start
        = (if inp.metaOk = true then inp.now else st.playback_start) ∧
      (trigger_step inp st).l2_prev = true ∧
      (trigger_step inp st).r2_prev = false) := by
  constructor
  · intro hprev hr2 hl2 hadj
    obtain ⟨e_sel, e_pid, e_paused, e_pstart, e_mode, e_l2, e_r2, e_ent⟩ :=
      trigger_switch_effect st inp true (Or.inr hpid) (fun _ => hpid) hmode hadj
    rw [trigger_step_fire_r2 inp st hc hpid hl2 hr2 hprev]
    exact ⟨by simpa using e_sel, by simpa using e_pid, by simpa using e_paused,
      by simpa using e_pstart, by simp, by simp⟩
  · intro hprev hl2 hr2 hadj
    obtain ⟨e_sel, e_pid, e_paused, e_pstart, e_mode, e_l2, e_r2, e_ent⟩ :=
      trigger_switch_effect st inp false (Or.inr hpid) (fun _ => hpid) hmode hadj
    rw [trigger_step_fire_l2 inp st hc hpid hl2 hr2 hprev]
    exact ⟨by simpa using e_sel, by simpa using e_pid, by simpa using e_paused,
      by simpa using e_pstart, by simp, by simp⟩

/-- C1 counterexample: playing track 0 of two with a rising edge on the
right trigger; at the end of the very same tick the adjacent track is
already selected (index 1) and a fresh process (pid 6) is already running,
so the switch did not wait for the next exit-detection step and no pending
intent is left. -/
theorem c1_counterexample :
    (tick c1_inp demo_playing_st).selected_index = 1 ∧
    (tick c1_inp demo_playing_st).playgsf_pid = 6 ∧
    ¬ ((tick c1_inp demo_playing_st).playgsf_pid = -1) := by
  decide

theorem c1_witness :
    (trigger_step c1_inp demo_playing_st).selected_index
      = find_next_track demo_playing_st.entries demo_playing_st.selected_index true ∧
    (trigger_step c1_inp demo_playing_st).playgsf_pid
      = (if c1_inp.forkResult > 0 then c1_inp.forkResult else -1) ∧
    (trigger_step c1_inp demo_playing_st).paused = false ∧
    (trigger_step c1_inp demo_playing_st).playback_start
      = (if c1_inp.metaOk = true then c1_inp.now else demo_playing_st.playback_start) ∧
    (trigger_step c1_inp demo_playing_st).r2_prev = true ∧
    (trigger_step c1_inp demo_playing_st).l2_prev = false :=
  (c1_trigger_edge_switches_same_tick demo_playing_st c1_inp (by decide)
      (by decide) (by decide)).1 (by decide) (by decide) (by decide) (by decide)

/-! ### C3: pause and elapsed time -/

/-- C3 (amended): while paused the elapsed counter is simply not updated
(the update step is a no-op), and neither pause nor resume adjusts the
playback start instant; consequently, once unpaused again the reported
elapsed is now minus the original start instant, which includes any paused
interval rather than excluding it. -/
theorem c3_pause_freezes_display_only (st : St) (inp : TickInput) :
    (st.paused = true → elapsed_step inp st = st) ∧
    (handle_playback_button inp Button.START st).playback_start
      = st.playback_start ∧
    (st.paused = false → st.mode = Mode.MODE_PLAYBACK → st.playgsf_pid > 0 →
      (elapsed_step inp st).elapsed_seconds = inp.now - st.playback_start) := by
  refine ⟨?_, ?_, ?_⟩
  · intro h
    unfold elapsed_step
    rw [if_neg]
    intro hc
    rw [h] at hc
    exact absurd hc.2.2 (by simp)
  · simp only [handle_playback_button]
    split_ifs <;> rfl
  · intro h1 h2 h3
    unfold elapsed_step
    rw [if_pos ⟨h2, h3, h1⟩]

/-- C3 counterexample: start a track at t=0, pause at t=5, resume at t=15,
read the counter at t=16.  Only 6 seconds were spent unpaused, but the
program reports 16: the paused interval is included, not excluded. -/
theorem c3_counterexample :
    (run (init_st (demo_fs MUSIC_ROOT) 20 0)
        [mkInput 0 [Event.buttonDown Button.A],
         mkInput 5 [Event.buttonDown Button.START],
         mkInput 15 [Event.buttonDown Button.START],
         mkInput 16 []]).elapsed_seconds = 16 ∧
    ¬ (run (init_st (demo_fs MUSIC_ROOT) 20 0)
        [mkInput 0 [Event.buttonDown Button.A],
         mkInput 5 [Event.buttonDown Button.START],
         mkInput 15 [Event.buttonDown Button.START],
         mkInput 16 []]).elapsed_seconds = 6 := by
  decide

theorem c3_witness :
    elapsed_step (mkInput 15 []) c3w_st = c3w_st ∧
    (handle_playback_button (mkInput 15 []) Button.START c3w_st).playback_start
      = c3w_st.playback_start ∧
    (elapsed_step (mkInput 16 []) demo_playing_st).elapsed_seconds = 16 - 0 := by
  have h1 := c3_pause_freezes_display_only c3w_st (mkInput 15 [])
  have h2 := c3_pause_freezes_display_only demo_playing_st (mkInput 16 [])
  exact ⟨h1.1 (by decide), h1.2.1,
    (h2.2.2 (by decide) (by decide) (by decide)).trans (by decide)⟩

/-! ### The inductive invariant: helper lemmas -/

lemma invcore_set_sel (st : St) (x : Int) (h : InvCore st) :
    InvCore { st with selected_index := x } := by
  simpa [InvCore] using h

lemma invcore_set_path (st : St) (p : String) (h : InvCore st) :
    InvCore { st with current_path := p } := by
  simpa [InvCore] using h

lemma inv_set_elapsed (st : St) (x : Int) (h : Inv st) :
    Inv { st with elapsed_seconds := x } := by
  simpa [Inv, InvCore] using h

lemma inv_set_prev (st : St) (x y : Bool) (h : Inv st) :
    Inv { st with l2_prev := x, r2_prev := y } := by
  simpa [Inv, InvCore] using h

lemma inv_set_screen (st : St) (x : Bool) (h : Inv st) :
    Inv { st with screen_off := x } := by
  simpa [Inv, InvCore] using h

lemma inv_set_running (st : St) (x : Bool) (h : Inv st) :
    Inv { st with running := x } := by
  simpa [Inv, InvCore] using h

lemma inv_set_loop (st : St) (x : LoopMode) (h : Inv st) :
    Inv { st with loop_mode := x } := by
  simpa [Inv, InvCore] using h

lemma invcore_draw (ml : Int) (st : St) (h : InvCore st) :
    InvCore (draw_list_upd ml st) := by
  simpa [InvCore] using h

lemma draw_sel_spec (ml : Int) (st : St) :
    (st.entries = [] → (draw_list_upd ml st).selected_index = 0) ∧
    (st.entries ≠ [] →
      0 ≤ (draw_list_upd ml st).selected_index ∧
      (draw_list_upd ml st).selected_index < (st.entries.length : Int)) := by
  constructor
  · intro he
    simp only [draw_list_upd, clamp_index, he, List.length_nil]
    norm_num
    split_ifs <;> omega
  · intro hne
    have hlen : (0 : Int) < st.entries.length := by
      exact_mod_cast List.length_pos.mpr hne
    have h0 : ¬ ((st.entries.length : Int) = 0) := by omega
    simp only [draw_list_upd, clamp_index, if_pos hlen, if_neg h0]
    split_ifs <;> constructor <;> omega

lemma inv_draw (ml : Int) (st : St) (h : InvCore st) :
    Inv (draw_list_upd ml st) := by
  obtain ⟨hs1, hs2⟩ := draw_sel_spec ml st
  refine ⟨invcore_draw ml st h, ?_, ?_⟩
  · rw [draw_entries]
    exact hs1
  · rw [draw_entries]
    intro hne
    have := hs2 hne
    omega

lemma invcore_list (raw : Option (List Entry)) (reset : Bool) (st : St)
    (h : InvCore st) (hm : st.mode = Mode.MODE_LIST) :
    InvCore (list_directory raw reset st) := by
  obtain ⟨h1, h2, h5, h7⟩ := h
  refine ⟨?_, ?_, ?_, ?_⟩
  · intro _
    rw [list_directory_pid]
    exact h1 hm
  · rw [list_directory_pid]
    exact h2
  · rw [list_directory_paused, list_directory_pid]
    exact h5
  · intro hc
    rw [list_directory_mode, hm] at hc
    cases hc

lemma fnt_in_range (entries : List Entry) (cur : Int) (fwd : Bool)
    (hne : entries ≠ []) :
    find_next_track entries cur fwd = cur ∨
    (0 ≤ find_next_track entries cur fwd ∧
      find_next_track entries cur fwd < (entries.length : Int)) := by
  have hlen : (0 : Int) < entries.length := by
    exact_mod_cast List.length_pos.mpr hne
  unfold find_next_track
  rw [if_neg (by omega)]
  have aux : ∀ (fuel : Nat) (idx : Int),
      fnt_loop entries cur fwd fuel idx = cur ∨
      (0 ≤ fnt_loop entries cur fwd fuel idx ∧
        fnt_loop entries cur fwd fuel idx < (entries.length : Int)) := by
    intro fuel
    induction fuel with
    | zero => intro idx; exact Or.inl rfl
    | succ n ih =>
      intro idx
      have hb : ∀ j : Int,
          0 ≤ (if fwd then (j + 1) % (entries.length : Int)
               else (j - 1 + entries.length) % (entries.length : Int)) ∧
          (if fwd then (j + 1) % (entries.length : Int)
           else (j - 1 + entries.length) % (entries.length : Int))
            < (entries.length : Int) := by
        intro j
        split_ifs <;>
          exact ⟨Int.emod_nonneg _ (by omega), Int.emod_lt_of_pos _ hlen⟩
      have key : ∀ j : Int, 0 ≤ j → j < (entries.length : Int) →
          ((if playable_at entries j = true then j
            else if j = cur then cur else fnt_loop entries cur fwd n j) = cur ∨
           (0 ≤ (if playable_at entries j = true then j
                 else if j = cur then cur else fnt_loop entries cur fwd n j) ∧
            (if playable_at entries j = true then j
             else if j = cur then cur else fnt_loop entries cur fwd n j)
              < (entries.length : Int))) := by
        intro j hj1 hj2
        split_ifs with hp hc
        · exact Or.inr ⟨hj1, hj2⟩
        · exact Or.inl rfl
        · exact ih j
      simp only [fnt_loop]
      exact key _ (hb idx).1 (hb idx).2
  exact aux entries.length cur

/-! ### Invariant preservation through each phase -/

lemma invcore_set_screen (st : St) (x : Bool) (h : InvCore st) :
    InvCore { st with screen_off := x } := by
  simpa [InvCore] using h

lemma exit_respawn_effect (inp : TickInput) (st1 : St)
    (hpid : st1.playgsf_pid = -1) (hmode : st1.mode = Mode.MODE_PLAYBACK) :
    (exit_respawn inp st1).mode = Mode.MODE_PLAYBACK ∧
    (exit_respawn inp st1).entries = st1.entries ∧
    (exit_respawn inp st1).paused
      = (if inp.forkResult > 0 then false else st1.paused) ∧
    (exit_respawn inp st1).playgsf_pid
      = (if inp.forkResult > 0 then inp.forkResult else -1) ∧
    ((exit_respawn inp st1).selected_index = st1.selected_index ∨
      (exit_respawn inp st1).selected_index
        = find_next_track st1.entries st1.selected_index true) := by
  unfold exit_respawn
  by_cases hone : st1.loop_mode = LoopMode.LOOP_ONE
  · cases hmk : inp.metaOk <;>
      simp [hone, hmk, hpid, hmode, launch_pid, launch_paused]
  · by_cases hch :
      find_next_track st1.entries st1.selected_index true ≠ st1.selected_index
    · cases hmk : inp.metaOk <;>
        simp [hone, hch, hmk, hpid, hmode, launch_pid, launch_paused]
    · cases hmk : inp.metaOk <;>
        simp [hone, hch, hmk, hpid, hmode, launch_pid, launch_paused]

lemma inv_exit_respawn (inp : TickInput) (st1 : St)
    (hpid : st1.playgsf_pid = -1) (hpaused : st1.paused = false)
    (hmode : st1.mode = Mode.MODE_PLAYBACK) (hne : st1.entries ≠ [])
    (hsel : 0 ≤ st1.selected_index ∧
      st1.selected_index < (st1.entries.length : Int)) :
    Inv (exit_respawn inp st1) := by
  obtain ⟨e_mode, e_entries, e_paused, e_pid, e_sel⟩ :=
    exit_respawn_effect inp st1 hpid hmode
  refine ⟨⟨?_, ?_, ?_, ?_⟩, ?_, ?_⟩
  · intro hm
    rw [e_mode] at hm
    simp at hm
  · rw [e_pid]
    split_ifs with hf
    · exact Or.inr hf
    · exact Or.inl rfl
  · intro hp
    rw [e_paused] at hp
    split_ifs at hp with hf
    rw [hpaused] at hp
    simp at hp
  · intro _
    rw [e_entries]
    exact hne
  · intro hemp
    rw [e_entries] at hemp
    exact absurd hemp hne
  · intro _
    rw [e_entries]
    rcases e_sel with h | h
    · rw [h]
      exact hsel
    · rcases fnt_in_range st1.entries st1.selected_index true hne with hh | hh
      · rw [h, hh]
        exact hsel
      · rw [h]
        exact hh

lemma inv_exit (inp : TickInput) (st : St) (h : Inv st) :
    Inv (exit_step inp st) := by
  simp only [exit_step]
  split_ifs with hg hoff
  · obtain ⟨⟨h1, h2, h5, h7⟩, h3, h4⟩ := h
    apply inv_draw
    refine ⟨fun _ => rfl, Or.inl rfl, ?_, ?_⟩
    · intro hp
      have hp2 : st.paused = true := hp
      rw [hg.2.1] at hp2
      simp at hp2
    · intro hc
      simp at hc
  · obtain ⟨⟨h1, h2, h5, h7⟩, h3, h4⟩ := h
    have hmode : st.mode = Mode.MODE_PLAYBACK := by
      cases hmm : st.mode
      · have := h1 hmm
        have hpd := hg.1
        omega
      · rfl
    have hne : st.entries ≠ [] := h7 hmode
    exact inv_exit_respawn inp _ rfl hg.2.1 hmode hne (h4 hne)
  · exact h

lemma inv_elapsed (inp : TickInput) (st : St) (h : Inv st) :
    Inv (elapsed_step inp st) := by
  unfold elapsed_step
  split_ifs
  · exact inv_set_elapsed _ _ h
  · exact h

lemma inv_trigger_switch (inp : TickInput) (fwd : Bool) (st : St)
    (h : Inv st) (hmode : st.mode = Mode.MODE_PLAYBACK) :
    Inv (trigger_switch inp fwd st) ∧
    (trigger_switch inp fwd st).mode = Mode.MODE_PLAYBACK := by
  obtain ⟨⟨h1, h2, h5, h7⟩, h3, h4⟩ := h
  have hne : st.entries ≠ [] := h7 hmode
  by_cases hadj :
    find_next_track st.entries st.selected_index fwd ≠ st.selected_index
  · obtain ⟨e_sel, e_pid, e_paused, e_pstart, e_mode, e_l2, e_r2, e_ent⟩ :=
      trigger_switch_effect st inp fwd h2 h5 hmode hadj
    refine ⟨⟨⟨?_, ?_, ?_, ?_⟩, ?_, ?_⟩, e_mode⟩
    · intro hm
      rw [e_mode] at hm
      simp at hm
    · rw [e_pid]
      split_ifs with hf
      · exact Or.inr hf
      · exact Or.inl rfl
    · intro hp
      rw [e_paused] at hp
      simp at hp
    · intro _
      rw [e_ent]
      exact hne
    · intro hemp
      rw [e_ent] at hemp
      exact absurd hemp hne
    · intro _
      rw [e_ent, e_sel]
      rcases fnt_in_range st.entries st.selected_index fwd hne with hh | hh
      · rw [hh]
        exact h4 hne
      · exact hh
  · have heq : trigger_switch inp fwd st = st := by
      unfold trigger_switch
      rw [if_neg hadj]
    rw [heq]
    exact ⟨⟨⟨h1, h2, h5, h7⟩, h3, h4⟩, hmode⟩

lemma trigger_step_eq (inp : TickInput) (st : St)
    (hg : inp.controller = true ∧ st.playgsf_pid > 0) :
    trigger_step inp st =
      { (if decide (inp.r2 > TRIGGER_THRESHOLD) = true ∧ st.r2_prev = false then
           trigger_switch inp true
             (if decide (inp.l2 > TRIGGER_THRESHOLD) = true ∧ st.l2_prev = false
              then trigger_switch inp false st
              else st)
         else
           (if decide (inp.l2 > TRIGGER_THRESHOLD) = true ∧ st.l2_prev = false
            then trigger_switch inp false st
            else st)) with
        l2_prev := decide (inp.l2 > TRIGGER_THRESHOLD)
        r2_prev := decide (inp.r2 > TRIGGER_THRESHOLD) } := by
  unfold trigger_step
  rw [if_pos hg]

lemma inv_trigger (inp : TickInput) (st : St) (h : Inv st) :
    Inv (trigger_step inp st) := by
  by_cases hg : inp.controller = true ∧ st.playgsf_pid > 0
  · have hmode : st.mode = Mode.MODE_PLAYBACK := by
      cases hmm : st.mode
      · have hh := h.1.1 hmm
        have hpd := hg.2
        omega
      · rfl
    rw [trigger_step_eq inp st hg]
    apply inv_set_prev
    split_ifs with hr2c hl2c hl2c2
    · obtain ⟨hi1, hm1⟩ := inv_trigger_switch inp false st h hmode
      exact (inv_trigger_switch inp true _ hi1 hm1).1
    · exact (inv_trigger_switch inp true st h hmode).1
    · exact (inv_trigger_switch inp false st h hmode).1
    · exact h
  · have heq : trigger_step inp st = st := by
      unfold trigger_step
      rw [if_neg hg]
    rw [heq]
    exact h

lemma playback_skip_effect (st : St) (inp : TickInput) (fwd : Bool)
    (hsane : st.playgsf_pid = -1 ∨ st.playgsf_pid > 0)
    (hp5 : st.paused = true → st.playgsf_pid > 0)
    (hadj : find_next_track st.entries st.selected_index fwd ≠ st.selected_index) :
    (playback_skip inp fwd st).selected_index
      = find_next_track st.entries st.selected_index fwd ∧
    (playback_skip inp fwd st).playgsf_pid
      = (if inp.forkResult > 0 then inp.forkResult else -1) ∧
    (playback_skip inp fwd st).paused = false ∧
    (playback_skip inp fwd st).mode = st.mode ∧
    (playback_skip inp fwd st).entries = st.entries := by
  unfold playback_skip
  rw [if_pos hadj]
  cases hmk : inp.metaOk <;>
    simp [hmk, hsane, hp5, launch_pid, kill_pid]

lemma inv_playback_skip (inp : TickInput) (fwd : Bool) (st : St)
    (h : Inv st) (hmode : st.mode = Mode.MODE_PLAYBACK) :
    Inv (playback_skip inp fwd st) := by
  obtain ⟨⟨h1, h2, h5, h7⟩, h3, h4⟩ := h
  have hne : st.entries ≠ [] := h7 hmode
  by_cases hadj :
    find_next_track st.entries st.selected_index fwd ≠ st.selected_index
  · obtain ⟨e_sel, e_pid, e_paused, e_mode, e_ent⟩ :=
      playback_skip_effect st inp fwd h2 h5 hadj
    refine ⟨⟨?_, ?_, ?_, ?_⟩, ?_, ?_⟩
    · intro hm
      rw [e_mode, hmode] at hm
      simp at hm
    · rw [e_pid]
      split_ifs with hf
      · exact Or.inr hf
      · exact Or.inl rfl
    · intro hp
      rw [e_paused] at hp
      simp at hp
    · intro _
      rw [e_ent]
      exact hne
    · intro hemp
      rw [e_ent] at hemp
      exact absurd hemp hne
    · intro _
      rw [e_ent, e_sel]
      rcases fnt_in_range st.entries st.selected_index fwd hne with hh | hh
      · rw [hh]
        exact h4 hne
      · exact hh
  · have heq : playback_skip inp fwd st = st := by
      unfold playback_skip
      rw [if_neg hadj]
    rw [heq]
    exact ⟨⟨h1, h2, h5, h7⟩, h3, h4⟩

lemma inv_handle_playback (inp : TickInput) (b : Button) (st : St)
    (h : Inv st) (hmode : st.mode = Mode.MODE_PLAYBACK) :
    Inv (handle_playback_button inp b st) := by
  obtain ⟨⟨h1, h2, h5, h7⟩, h3, h4⟩ := h
  cases b with
  | B =>
    simp only [handle_playback_button]
    apply inv_draw
    refine ⟨fun _ => ?_, ?_, ?_, ?_⟩
    · exact kill_pid st h2
    · exact Or.inl (kill_pid st h2)
    · intro hp
      have hkp : ({ kill_playgsf st with mode := Mode.MODE_LIST } : St).paused
          = false := kill_paused st h5
      rw [hkp] at hp
      simp at hp
    · intro hc
      simp at hc
  | DPAD_LEFT => exact inv_playback_skip inp false st ⟨⟨h1, h2, h5, h7⟩, h3, h4⟩ hmode
  | DPAD_RIGHT => exact inv_playback_skip inp true st ⟨⟨h1, h2, h5, h7⟩, h3, h4⟩ hmode
  | START =>
    simp only [handle_playback_button]
    split_ifs with hp
    · exact ⟨⟨fun hm => h1 hm, h2, fun _ => hp, fun hc => h7 hc⟩, h3, h4⟩
    · exact ⟨⟨h1, h2, h5, h7⟩, h3, h4⟩
  | GUIDE => exact ⟨⟨h1, h2, h5, h7⟩, h3, h4⟩
  | BACK => exact ⟨⟨h1, h2, h5, h7⟩, h3, h4⟩
  | Y => exact ⟨⟨h1, h2, h5, h7⟩, h3, h4⟩
  | DPAD_UP => exact ⟨⟨h1, h2, h5, h7⟩, h3, h4⟩
  | DPAD_DOWN => exact ⟨⟨h1, h2, h5, h7⟩, h3, h4⟩
  | LEFTSHOULDER => exact ⟨⟨h1, h2, h5, h7⟩, h3, h4⟩
  | RIGHTSHOULDER => exact ⟨⟨h1, h2, h5, h7⟩, h3, h4⟩
  | A => exact ⟨⟨h1, h2, h5, h7⟩, h3, h4⟩
  | OTHER => exact ⟨⟨h1, h2, h5, h7⟩, h3, h4⟩

lemma inv_a_file (inp : TickInput) (st1 : St)
    (hpid : st1.playgsf_pid = -1)
    (hne : st1.entries ≠ [])
    (hsel : 0 ≤ st1.selected_index ∧
      st1.selected_index < (st1.entries.length : Int)) :
    Inv { (launch_playgsf st1 inp.forkResult).2 with
            mode := Mode.MODE_PLAYBACK
            paused := false
            playback_start := inp.now } := by
  refine ⟨⟨?_, ?_, ?_, ?_⟩, ?_, ?_⟩
  · intro hmm
    simp at hmm
  · have hproj : ({ (launch_playgsf st1 inp.forkResult).2 with
        mode := Mode.MODE_PLAYBACK
        paused := false
        playback_start := inp.now } : St).playgsf_pid
      = (launch_playgsf st1 inp.forkResult).2.playgsf_pid := rfl
    rw [hproj, launch_pid _ _ hpid]
    split_ifs with hf
    · exact Or.inr hf
    · exact Or.inl rfl
  · intro hp
    simp at hp
  · intro _
    simpa using hne
  · intro hemp
    exact absurd (by simpa using hemp) hne
  · intro _
    constructor
    · simp
      omega
    · simp
      omega

lemma inv_handle_list (inp : TickInput) (b : Button) (st : St)
    (h : Inv st) (hm : st.mode = Mode.MODE_LIST) :
    Inv (handle_list_button inp b st) := by
  obtain ⟨⟨h1, h2, h5, h7⟩, h3, h4⟩ := h
  have hcore : InvCore st := ⟨h1, h2, h5, h7⟩
  cases b with
  | DPAD_UP =>
    simp only [handle_list_button]
    apply inv_draw
    split_ifs
    · exact invcore_set_sel st _ hcore
    · exact hcore
  | DPAD_DOWN =>
    simp only [handle_list_button]
    apply inv_draw
    split_ifs
    · exact invcore_set_sel st _ hcore
    · exact hcore
  | LEFTSHOULDER =>
    simp only [handle_list_button]
    exact inv_draw _ _ (invcore_set_sel st _ hcore)
  | RIGHTSHOULDER =>
    simp only [handle_list_button]
    exact inv_draw _ _ (invcore_set_sel st _ hcore)
  | DPAD_LEFT =>
    simp only [handle_list_button]
    split_ifs
    · exact inv_draw _ _ (invcore_set_sel st _ hcore)
    · exact ⟨hcore, h3, h4⟩
  | DPAD_RIGHT =>
    simp only [handle_list_button]
    split_ifs
    · exact inv_draw _ _ (invcore_set_sel st _ hcore)
    · exact ⟨hcore, h3, h4⟩
  | A =>
    simp only [handle_list_button]
    by_cases hvalid : st.selected_index < 0 ∨
        st.selected_index ≥ (st.entries.length : Int)
    · rw [if_pos hvalid]
      exact ⟨hcore, h3, h4⟩
    · rw [if_neg hvalid]
      push_neg at hvalid
      rcases hg : st.entries.get? st.selected_index.toNat with _ | e
      · exact ⟨hcore, h3, h4⟩
      · have hlen : (0 : Int) < st.entries.length := by omega
        have hneq : st.entries ≠ [] := by
          intro hemp
          rw [hemp] at hlen
          simp at hlen
        by_cases hd : e.is_dir = true
        · simp only [hd, eq_self_iff_true, ite_true]
          apply inv_draw
          exact invcore_list _ _ _ (invcore_set_path st _ hcore) hm
        · have hdf : e.is_dir = false := by
            cases hdd : e.is_dir
            · rfl
            · exact absurd hdd hd
          simp only [hdf, Bool.false_eq_true, if_false]
          apply inv_a_file
          · split_ifs <;> exact h1 hm
          · split_ifs <;> exact hneq
          · split_ifs <;> exact hvalid
  | B =>
    simp only [handle_list_button]
    split_ifs
    · apply inv_draw
      apply invcore_list
      · exact invcore_set_path st _ hcore
      · exact hm
    · exact ⟨hcore, h3, h4⟩
  | GUIDE => exact ⟨hcore, h3, h4⟩
  | BACK => exact ⟨hcore, h3, h4⟩
  | Y => exact ⟨hcore, h3, h4⟩
  | START => exact ⟨hcore, h3, h4⟩
  | OTHER => exact ⟨hcore, h3, h4⟩

lemma inv_handle_button_rest (inp : TickInput) (b : Button) (st0 : St)
    (h : Inv st0) : Inv (handle_button_rest inp b st0) := by
  unfold handle_button_rest
  split_ifs with hy hl
  · exact inv_set_loop _ _ h
  · exact inv_handle_list inp b st0 h hl
  · have hmode : st0.mode = Mode.MODE_PLAYBACK := by
      cases hmm : st0.mode
      · exact absurd hmm hl
      · rfl
    exact inv_handle_playback inp b st0 h hmode

lemma inv_handle_button (inp : TickInput) (b : Button) (st : St)
    (h : Inv st) : Inv (handle_button inp b st) := by
  unfold handle_button
  by_cases hg : b = Button.GUIDE
  · rw [if_pos hg]
    split_ifs with h1
    · exact inv_set_screen _ _ h
    · show Inv (if st.mode = Mode.MODE_LIST then
          draw_list_upd inp.max_lines { st with screen_off := false }
        else { st with screen_off := false })
      split_ifs
      · exact inv_draw _ _ (invcore_set_screen st false h.1)
      · exact inv_set_screen _ _ h
  · rw [if_neg hg]
    by_cases hs : st.screen_off = true
    · rw [if_pos hs]
      exact h
    · rw [if_neg hs]
      apply inv_handle_button_rest
      split_ifs
      · exact inv_set_running _ _ h
      · exact h

lemma inv_handle_event (inp : TickInput) (e : Event) (st : St)
    (h : Inv st) : Inv (handle_event inp st e) := by
  cases e with
  | quit => exact inv_set_running _ _ h
  | buttonDown b => exact inv_handle_button inp b st h
  | other => exact h

lemma inv_foldl_events (inp : TickInput) :
    ∀ (l : List Event) (st : St), Inv st →
      Inv (l.foldl (handle_event inp) st) := by
  intro l
  induction l with
  | nil => intro st h; exact h
  | cons e t ih =>
    intro st h
    exact ih _ (inv_handle_event inp e st h)

lemma inv_tick (inp : TickInput) (st : St) (h : Inv st) :
    Inv (tick inp st) := by
  unfold tick run_events
  exact inv_foldl_events inp inp.events _
    (inv_trigger inp _ (inv_elapsed inp _ (inv_exit inp st h)))

lemma inv_run : ∀ (inps : List TickInput) (st : St), Inv st →
    Inv (run st inps) := by
  intro inps
  induction inps with
  | nil => intro st h; exact h
  | cons i is ih =>
    intro st h
    unfold run
    split_ifs
    · exact ih _ (inv_tick i st h)
    · exact h

lemma inv_init (fs0 : Option (List Entry)) (ml t0 : Int) :
    Inv (init_st fs0 ml t0) := by
  unfold init_st
  apply inv_draw
  apply invcore_list
  · refine ⟨fun _ => rfl, Or.inl rfl, ?_, ?_⟩
    · intro hp
      simp at hp
    · intro hc
      simp at hc
  · rfl

/-! ### C4 and C10 -/

/-- C4: in every state reachable from start-up by any sequence of tick
inputs (covering directory relists, up/down moves, page jumps and
adjacent-track jumps, each followed by the redraw the program performs),
the selection is 0 when the catalog is empty and lies in [0, len-1] when
it is not. -/
theorem c4_selected_index_clamped (fs0 : Option (List Entry)) (ml t0 : Int)
    (inps : List TickInput) :
    ((run (init_st fs0 ml t0) inps).entries = [] →
      (run (init_st fs0 ml t0) inps).selected_index = 0) ∧
    ((run (init_st fs0 ml t0) inps).entries ≠ [] →
      0 ≤ (run (init_st fs0 ml t0) inps).selected_index ∧
      (run (init_st fs0 ml t0) inps).selected_index
        < ((run (init_st fs0 ml t0) inps).entries.length : Int)) := by
  have h := inv_run inps (init_st fs0 ml t0) (inv_init fs0 ml t0)
  exact ⟨h.2.1, h.2.2⟩

theorem c4_witness :
    (run (init_st (some []) 20 0) []).selected_index = 0 ∧
    0 ≤ (run (init_st (some demo_tracks) 20 0) []).selected_index ∧
    (run (init_st (some demo_tracks) 20 0) []).selected_index
      < ((run (init_st (some demo_tracks) 20 0) []).entries.length : Int) :=
  ⟨(c4_selected_index_clamped (some []) 20 0 []).1 (by decide),
   ((c4_selected_index_clamped (some demo_tracks) 20 0 []).2 (by decide)).1,
   ((c4_selected_index_clamped (some demo_tracks) 20 0 []).2 (by decide)).2⟩

/-- C10: in every state reachable from start-up by any sequence of tick
inputs, paused implies a live process handle: pause is only entered with a
process held, and every path clearing the handle (terminate, natural-exit
detection, spawn) leaves paused false. -/
theorem c10_paused_implies_process (fs0 : Option (List Entry)) (ml t0 : Int)
    (inps : List TickInput) :
    (run (init_st fs0 ml t0) inps).paused = true →
    (run (init_st fs0 ml t0) inps).playgsf_pid > 0 :=
  (inv_run inps (init_st fs0 ml t0) (inv_init fs0 ml t0)).1.2.2.1

theorem c10_witness :
    (run (init_st (some demo_tracks) 20 0)
        [mkInput 0 [Event.buttonDown Button.A],
         mkInput 5 [Event.buttonDown Button.START]]).playgsf_pid > 0 :=
  c10_paused_implies_process (some demo_tracks) 20 0
    [mkInput 0 [Event.buttonDown Button.A],
     mkInput 5 [Event.buttonDown Button.START]] (by decide)

end PlayGSF
